import Mathlib

set_option maxRecDepth 4096

/-!
Shallow embedding of the corezoid SDK (Python): the JSON value model used by
the request/response envelopes, the operation builders of operations.py, the
batch container of batch.py, the HMAC-SHA256 signing of utils.py, the
response-processing of http.py and the client entry points of client.py,
together with theorems settling the behavioural claims about them.
-/

/-- The ten decimal digit characters. -/
def decimalChars : List Char := "0123456789".data

/-- The sixteen lowercase hexadecimal digit characters. -/
def hexLowerChars : List Char := "0123456789abcdef".data

/-- One lowercase hex digit for a nibble, as Python percent-x formatting emits. -/
def hexDigitChar (n : Nat) : Char := Nat.digitChar (n % 16)

/-- Decimal digit list of a natural number, by recursion on a fuel bound
that always suffices (n / 10 < n for positive n). -/
def natDigitsAux : Nat → Nat → List Char
  | 0, _ => []
  | fuel + 1, n =>
    if n < 10 then [Nat.digitChar n]
    else natDigitsAux fuel (n / 10) ++ [Nat.digitChar (n % 10)]

/-- Decimal digit list of a natural number, mirroring Python str() on the
nonnegative int produced by int(time.time()). -/
def natDigits (n : Nat) : List Char := natDigitsAux (n + 1) n

/-- Python str() of a nonnegative int. -/
def natStr (n : Nat) : String := ⟨natDigits n⟩

/-- Python str() of an int: a minus sign before the decimal digits of the
absolute value when negative. -/
def intStr (n : Int) : String :=
  if n < 0 then ⟨'-' :: natDigits n.natAbs⟩ else ⟨natDigits n.natAbs⟩

/-- Python string slicing s[:n] (the strings sliced in this SDK are ASCII). -/
def strTake (s : String) (n : Nat) : String := ⟨s.data.take n⟩

/-- JSON values as Python's json module stores them: None, bool, int, str,
list and dict (insertion-ordered key/value pairs).  Floats do not occur in
the envelopes this SDK builds. -/
inductive Json where
  | null
  | bool (b : Bool)
  | num (n : Int)
  | str (s : String)
  | arr (elems : List Json)
  | obj (fields : List (String × Json))

/-- A Python dict with string keys and JSON values, in insertion order. -/
abbrev JDict := List (String × Json)

/-- Python dict.get(key): the stored value, or None when the key is absent
(keys are unique in a Python dict). -/
def dictGet (d : JDict) (k : String) : Option Json :=
  (d.find? (fun kv => kv.1 == k)).map Prod.snd

/-- The keys of a dict, in insertion order. -/
def dictKeys (d : JDict) : List String := d.map Prod.fst

/-- A conv_id argument: Python Union[str, int]. -/
inductive ConvId where
  | int (n : Int)
  | str (s : String)
deriving DecidableEq, Repr

/-- Python str() applied to a conv_id: an int renders as its decimal form,
a str is returned unchanged. -/
def ConvId.toStr : ConvId → String
  | .int n => intStr n
  | .str s => s

namespace RequestOperation

/-- RequestOperation.create from operations.py: the create-task dict, in the
insertion order the source constructs it. -/
def create (conv_id : ConvId) (ref : String) (data : Json) : JDict :=
  [("type", Json.str "create"),
   ("conv_id", Json.str conv_id.toStr),
   ("obj", Json.str "task"),
   ("ref", Json.str ref),
   ("data", data)]

/-- RequestOperation.modify_ref from operations.py. -/
def modify_ref (conv_id : ConvId) (ref : String) (data : Json) : JDict :=
  [("type", Json.str "modify"),
   ("conv_id", Json.str conv_id.toStr),
   ("obj", Json.str "task"),
   ("ref", Json.str ref),
   ("data", data)]

/-- RequestOperation.modify_id from operations.py. -/
def modify_id (conv_id : ConvId) (obj_id : String) (data : Json) : JDict :=
  [("type", Json.str "modify"),
   ("conv_id", Json.str conv_id.toStr),
   ("obj", Json.str "task"),
   ("obj_id", Json.str obj_id),
   ("data", data)]

/-- RequestOperation.get from operations.py. -/
def get (conv_id : ConvId) (ref : String) : JDict :=
  [("type", Json.str "get"),
   ("conv_id", Json.str conv_id.toStr),
   ("obj", Json.str "task"),
   ("ref", Json.str ref)]

/-- RequestOperation.get_by_id from operations.py. -/
def get_by_id (conv_id : ConvId) (obj_id : String) : JDict :=
  [("type", Json.str "get"),
   ("conv_id", Json.str conv_id.toStr),
   ("obj", Json.str "task"),
   ("obj_id", Json.str obj_id)]

end RequestOperation

/-- Python truthiness of an Optional[Dict] argument: None and the empty dict
are falsy, a nonempty dict is truthy. -/
def pyTruthyDict : Option JDict → Bool
  | none => false
  | some kvs => !kvs.isEmpty

/-- Python truthiness of an Optional[str] argument: None and the empty string
are falsy, a nonempty string is truthy. -/
def pyTruthyStr : Option String → Bool
  | none => false
  | some s => !s.isEmpty

namespace ResponseOperation

/-- ResponseOperation.ok from operations.py: the base dict, with the data key
appended only when the data argument is truthy (the source guards the
assignment with a plain if data:). -/
def ok (conv_id : ConvId) (ref : String) (data : Option JDict) : JDict :=
  let operation : JDict :=
    [("obj", Json.str "task"),
     ("proc", Json.str "ok"),
     ("conv_id", Json.str conv_id.toStr),
     ("ref", Json.str ref)]
  if pyTruthyDict data then operation ++ [("data", Json.obj (data.getD []))]
  else operation

/-- ResponseOperation.error from operations.py: the base dict, with the
error_code key appended only when the error_code argument is truthy. -/
def error (conv_id : ConvId) (ref : String) (error_message : String)
    (error_code : Option String) : JDict :=
  let operation : JDict :=
    [("obj", Json.str "task"),
     ("proc", Json.str "error"),
     ("conv_id", Json.str conv_id.toStr),
     ("ref", Json.str ref),
     ("error_message", Json.str error_message)]
  if pyTruthyStr error_code then
    operation ++ [("error_code", Json.str (error_code.getD ""))]
  else operation

end ResponseOperation

/-- The dict behind a JSON value; Python op.get is only reached on dict
elements, so non-dict values do not occur where this is used. -/
def Json.asDict : Json → JDict
  | .obj kvs => kvs
  | _ => []

/-- CorezoidResponse from client.py: the raw response dict, with the
request_proc and ops fields extracted once at construction. -/
structure CorezoidResponse where
  data : JDict
  request_proc : Option Json
  ops : List JDict

/-- CorezoidResponse.__init__: request_proc is data.get('request_proc'),
ops is data.get('ops', []) (its elements are the per-operation dicts). -/
def CorezoidResponse.ofData (d : JDict) : CorezoidResponse :=
  { data := d
    request_proc := dictGet d "request_proc"
    ops := match dictGet d "ops" with
      | some (Json.arr l) => l.map Json.asDict
      | _ => [] }

/-- Python equality of an optional JSON value against a string: True exactly
when the value is present and is that string (None == s and non-string
values == s are False). -/
def isStrEq : Option Json → String → Bool
  | some (Json.str s), t => s == t
  | _, _ => false

/-- CorezoidResponse.is_success: the request_proc field equals the string ok
(a missing field, Python None, is not equal to a string). -/
def CorezoidResponse.is_success (r : CorezoidResponse) : Bool :=
  isStrEq r.request_proc "ok"

/-- CorezoidResponse.get_error: None on success, otherwise the value of the
error_message field of the raw dict (None when that field is absent). -/
def CorezoidResponse.get_error (r : CorezoidResponse) : Option Json :=
  if r.is_success then none
  else dictGet r.data "error_message"

/-- CorezoidResponse.get_operation_results: the ops list. -/
def CorezoidResponse.get_operation_results (r : CorezoidResponse) : List JDict :=
  r.ops

/-- CorezoidResponse.get_operation_result: linear scan over ops returning the
first element whose ref field equals the requested ref, None when no element
matches (op.get('ref') == ref is false when the field is absent or not the
requested string). -/
def CorezoidResponse.get_operation_result (r : CorezoidResponse) (ref : String) :
    Option JDict :=
  r.ops.find? (fun op => isStrEq (dictGet op "ref") ref)

/-- Four hex digits, as Python format(n, '04x') emits for n < 0x10000. -/
def hex4Chars (n : Nat) : List Char :=
  [hexDigitChar (n / 4096), hexDigitChar (n / 256), hexDigitChar (n / 16),
   hexDigitChar n]

/-- A JSON backslash-u escape. -/
def uEscape (n : Nat) : List Char := '\\' :: 'u' :: hex4Chars n

/-- The expansion of one character inside a JSON string literal, as Python
json.dumps with the default ensure_ascii=True emits it: the two-character
short escapes, backslash-u escapes (surrogate pairs above the BMP) for the
other characters outside the printable ASCII range, and the character itself
otherwise. -/
def escChars (c : Char) : List Char :=
  if c = '\\' then ['\\', '\\']
  else if c = '"' then ['\\', '"']
  else if c = '\x08' then ['\\', 'b']
  else if c = '\x0c' then ['\\', 'f']
  else if c = '\n' then ['\\', 'n']
  else if c = '\r' then ['\\', 'r']
  else if c = '\t' then ['\\', 't']
  else if c.toNat < 0x20 ∨ 0x7e < c.toNat then
    if c.toNat ≤ 0xffff then uEscape c.toNat
    else
      uEscape (0xd800 + (c.toNat - 0x10000) / 0x400) ++
        uEscape (0xdc00 + (c.toNat - 0x10000) % 0x400)
  else [c]

/-- A JSON string literal: quotes around the escaped characters. -/
def encodeStrChars (s : String) : List Char :=
  '"' :: (s.data.flatMap escChars) ++ ['"']

mutual

/-- json.dumps(data, separators=(',', ':')): compact serialization with the
item separator a bare comma and the key separator a bare colon, dict keys in
insertion order (Python dicts preserve it and sort_keys is not passed). -/
def dumpChars : Json → List Char
  | .null => "null".data
  | .bool true => "true".data
  | .bool false => "false".data
  | .num n => (intStr n).data
  | .str s => encodeStrChars s
  | .arr xs => '[' :: dumpArrChars xs ++ [']']
  | .obj kvs => '\x7b' :: dumpObjChars kvs ++ ['\x7d']

/-- Array elements joined by the item separator. -/
def dumpArrChars : List Json → List Char
  | [] => []
  | [x] => dumpChars x
  | x :: y :: rest => dumpChars x ++ ',' :: dumpArrChars (y :: rest)

/-- Object entries key:value joined by the item separator. -/
def dumpObjChars : JDict → List Char
  | [] => []
  | [(k, v)] => encodeStrChars k ++ ':' :: dumpChars v
  | (k, v) :: e :: rest =>
      encodeStrChars k ++ ':' :: dumpChars v ++ ',' :: dumpObjChars (e :: rest)

end

/-- utils.to_json: the compact JSON string of a dict. -/
def to_json (data : Json) : String := ⟨dumpChars data⟩

/-- The SDK exception taxonomy of exceptions.py, restricted to the errors the
modelled paths can raise.  ValueError is the builtin the batch raises. -/
inductive CzError where
  | validationError (msg : String)
  | connectionError (msg : String)
  | apiError (msg : String) (response : Option String)
  | valueError (msg : String)

/-- OperationBatch from batch.py: the operations list and the capacity. -/
structure OperationBatch where
  operations : List JDict
  max_batch_size : Nat

/-- OperationBatch(max_batch_size): a fresh, empty batch. -/
def OperationBatch.mk0 (max_batch_size : Nat) : OperationBatch :=
  { operations := [], max_batch_size := max_batch_size }

/-- OperationBatch.add: when len(operations) >= max_batch_size the call
raises ValueError and the batch object is left unchanged; otherwise the
operation is appended.  The first component is the raised error, if any. -/
def OperationBatch.add (b : OperationBatch) (operation : JDict) :
    Option String × OperationBatch :=
  if b.max_batch_size ≤ b.operations.length then
    (some ("Batch is full (max size: " ++ natStr b.max_batch_size ++ ")"), b)
  else
    (none, { b with operations := b.operations ++ [operation] })

/-- OperationBatch.add_create: when no ref is given one is generated as
task-<int(time.time())>-<uuid4().hex[:8]>; the current time and the uuid hex
string are explicit inputs of the model.  Returns the raised error (if any),
the batch after the call, and the reference used. -/
def OperationBatch.add_create (b : OperationBatch) (conv_id : ConvId)
    (data : Json) (ref? : Option String) (now : Nat) (uuidHex : String) :
    Option String × OperationBatch × String :=
  let ref := match ref? with
    | some r => r
    | none => "task-" ++ natStr now ++ "-" ++ strTake uuidHex 8
  let operation := RequestOperation.create conv_id ref data
  let (err, b') := b.add operation
  (err, b', ref)

/-- OperationBatch.add_modify_ref. -/
def OperationBatch.add_modify_ref (b : OperationBatch) (conv_id : ConvId)
    (ref : String) (data : Json) : Option String × OperationBatch :=
  b.add (RequestOperation.modify_ref conv_id ref data)

/-- OperationBatch.add_modify_id. -/
def OperationBatch.add_modify_id (b : OperationBatch) (conv_id : ConvId)
    (obj_id : String) (data : Json) : Option String × OperationBatch :=
  b.add (RequestOperation.modify_id conv_id obj_id data)

/-- OperationBatch.add_get. -/
def OperationBatch.add_get (b : OperationBatch) (conv_id : ConvId)
    (ref : String) : Option String × OperationBatch :=
  b.add (RequestOperation.get conv_id ref)

/-- OperationBatch.add_get_by_id. -/
def OperationBatch.add_get_by_id (b : OperationBatch) (conv_id : ConvId)
    (obj_id : String) : Option String × OperationBatch :=
  b.add (RequestOperation.get_by_id conv_id obj_id)

/-- OperationBatch.clear: the operations list is reset, the capacity kept. -/
def OperationBatch.clear (b : OperationBatch) : OperationBatch :=
  { b with operations := [] }

/-- OperationBatch.is_empty. -/
def OperationBatch.is_empty (b : OperationBatch) : Bool :=
  b.operations.length == 0

/-- OperationBatch.is_full. -/
def OperationBatch.is_full (b : OperationBatch) : Bool :=
  b.max_batch_size ≤ b.operations.length

/-- OperationBatch.size. -/
def OperationBatch.size (b : OperationBatch) : Nat := b.operations.length

/-- One mutating call on a batch, for stating the capacity invariant over
arbitrary call sequences. -/
inductive BatchCmd where
  | add (operation : JDict)
  | add_create (conv_id : ConvId) (data : Json) (ref? : Option String)
      (now : Nat) (uuidHex : String)
  | add_modify_ref (conv_id : ConvId) (ref : String) (data : Json)
  | add_modify_id (conv_id : ConvId) (obj_id : String) (data : Json)
  | add_get (conv_id : ConvId) (ref : String)
  | add_get_by_id (conv_id : ConvId) (obj_id : String)
  | clear

/-- The batch state after one call (a raising add leaves the Python object
unchanged, which is what the model's error component records). -/
def BatchCmd.apply (b : OperationBatch) : BatchCmd → OperationBatch
  | .add op => (b.add op).2
  | .add_create c d r n u => (b.add_create c d r n u).2.1
  | .add_modify_ref c r d => (b.add_modify_ref c r d).2
  | .add_modify_id c o d => (b.add_modify_id c o d).2
  | .add_get c r => (b.add_get c r).2
  | .add_get_by_id c o => (b.add_get_by_id c o).2
  | .clear => b.clear

/-- The batch state after a sequence of calls. -/
def runBatch (b : OperationBatch) (cs : List BatchCmd) : OperationBatch :=
  cs.foldl BatchCmd.apply b

/-- A sequence of plain add calls, recording each call's raised error (if
any) alongside the final batch state. -/
def addAll (b : OperationBatch) (ops : List JDict) :
    List (Option String) × OperationBatch :=
  match ops with
  | [] => ([], b)
  | op :: rest =>
    let (err, b') := b.add op
    let (errs, b'') := addAll b' rest
    (err :: errs, b'')


/-- Truncation to a 32-bit word. -/
def w32 (n : Nat) : Nat := n % 4294967296

/-- 32-bit modular addition. -/
def addw (a b : Nat) : Nat := (a + b) % 4294967296

/-- Right rotation of a 32-bit word. -/
def rotr (k x : Nat) : Nat := w32 ((x >>> k) ||| (x <<< (32 - k)))

/-- UTF-8 encoding of one character, mirroring str.encode('utf-8'). -/
def utf8Bytes (c : Char) : List Nat :=
  let n := c.toNat
  if n < 0x80 then [n]
  else if n < 0x800 then [0xc0 + n / 64, 0x80 + n % 64]
  else if n < 0x10000 then
    [0xe0 + n / 4096, 0x80 + n / 64 % 64, 0x80 + n % 64]
  else
    [0xf0 + n / 262144, 0x80 + n / 4096 % 64, 0x80 + n / 64 % 64, 0x80 + n % 64]

/-- str.encode('utf-8') as a byte list. -/
def strBytes (s : String) : List Nat := s.data.flatMap utf8Bytes

/-- The eight SHA-256 chaining words. -/
structure Sha256State where
  h0 : Nat
  h1 : Nat
  h2 : Nat
  h3 : Nat
  h4 : Nat
  h5 : Nat
  h6 : Nat
  h7 : Nat

/-- The SHA-256 initial hash value. -/
def sha256Init : Sha256State :=
  ⟨1779033703, 3144134277, 1013904242, 2773480762,
   1359893119, 2600822924, 528734635, 1541459225⟩

/-- The 64 SHA-256 round constants (in decimal). -/
def sha256K : List Nat :=
  [1116352408, 1899447441, 3049323471, 3921009573,
   961987163, 1508970993, 2453635748, 2870763221,
   3624381080, 310598401, 607225278, 1426881987,
   1925078388, 2162078206, 2614888103, 3248222580,
   3835390401, 4022224774, 264347078, 604807628,
   770255983, 1249150122, 1555081692, 1996064986,
   2554220882, 2821834349, 2952996808, 3210313671,
   3336571891, 3584528711, 113926993, 338241895,
   666307205, 773529912, 1294757372, 1396182291,
   1695183700, 1986661051, 2177026350, 2456956037,
   2730485921, 2820302411, 3259730800, 3345764771,
   3516065817, 3600352804, 4094571909, 275423344,
   430227734, 506948616, 659060556, 883997877,
   958139571, 1322822218, 1537002063, 1747873779,
   1955562222, 2024104815, 2227730452, 2361852424,
   2428436474, 2756734187, 3204031479, 3329325298]

/-- Big sigma 0. -/
def bSig0 (x : Nat) : Nat := (rotr 2 x) ^^^ (rotr 13 x) ^^^ (rotr 22 x)

/-- Big sigma 1. -/
def bSig1 (x : Nat) : Nat := (rotr 6 x) ^^^ (rotr 11 x) ^^^ (rotr 25 x)

/-- Small sigma 0. -/
def sSig0 (x : Nat) : Nat := (rotr 7 x) ^^^ (rotr 18 x) ^^^ (x >>> 3)

/-- Small sigma 1. -/
def sSig1 (x : Nat) : Nat := (rotr 17 x) ^^^ (rotr 19 x) ^^^ (x >>> 10)

/-- The choice function (not-x is the 32-bit complement). -/
def chF (x y z : Nat) : Nat := (x &&& y) ^^^ ((x ^^^ 0xffffffff) &&& z)

/-- The majority function. -/
def majF (x y z : Nat) : Nat := (x &&& y) ^^^ (x &&& z) ^^^ (y &&& z)

/-- Big-endian 32-bit words from bytes. -/
def bytesToWords : List Nat → List Nat
  | b0 :: b1 :: b2 :: b3 :: rest =>
      (b0 * 16777216 + b1 * 65536 + b2 * 256 + b3) :: bytesToWords rest
  | _ => []

/-- Extend the message schedule by fuel further words. -/
def extendSchedule : Nat → List Nat → List Nat
  | 0, w => w
  | fuel + 1, w =>
    let l := w.length
    let nw := addw (addw (sSig1 (w.getD (l - 2) 0)) (w.getD (l - 7) 0))
                   (addw (sSig0 (w.getD (l - 15) 0)) (w.getD (l - 16) 0))
    extendSchedule fuel (w ++ [nw])

/-- The 64-word message schedule of one block. -/
def schedule (w16 : List Nat) : List Nat := extendSchedule 48 w16

/-- The eight working registers of the compression loop. -/
structure Regs where
  a : Nat
  b : Nat
  c : Nat
  d : Nat
  e : Nat
  f : Nat
  g : Nat
  h : Nat

/-- One SHA-256 round on the working registers, for one constant/schedule
word pair. -/
def roundStep (r : Regs) (kw : Nat × Nat) : Regs :=
  let t1 := addw r.h (addw (bSig1 r.e) (addw (chF r.e r.f r.g) (addw kw.1 kw.2)))
  let t2 := addw (bSig0 r.a) (majF r.a r.b r.c)
  { a := addw t1 t2, b := r.a, c := r.b, d := r.c,
    e := addw r.d t1, f := r.e, g := r.f, h := r.g }

/-- Compression of one 64-byte block into the chaining state. -/
def sha256Compress (st : Sha256State) (block : List Nat) : Sha256State :=
  let ws := schedule (bytesToWords block)
  let r0 : Regs := ⟨st.h0, st.h1, st.h2, st.h3, st.h4, st.h5, st.h6, st.h7⟩
  let r := (sha256K.zip ws).foldl roundStep r0
  ⟨addw st.h0 r.a, addw st.h1 r.b, addw st.h2 r.c, addw st.h3 r.d,
   addw st.h4 r.e, addw st.h5 r.f, addw st.h6 r.g, addw st.h7 r.h⟩

/-- Big-endian 64-bit length field. -/
def be64 (n : Nat) : List Nat :=
  [n / 72057594037927936 % 256, n / 281474976710656 % 256,
   n / 1099511627776 % 256, n / 4294967296 % 256,
   n / 16777216 % 256, n / 65536 % 256, n / 256 % 256, n % 256]

/-- SHA-256 padding: a 0x80 byte, zeros to 56 mod 64, and the bit length. -/
def sha256Pad (msg : List Nat) : List Nat :=
  let len := msg.length
  let zeros := (64 - (len + 9) % 64) % 64
  msg ++ 0x80 :: List.replicate zeros 0 ++ be64 (8 * len)

/-- Split a byte list into 64-byte blocks. -/
def chunks64 : List Nat → List (List Nat)
  | [] => []
  | b :: rest => ((b :: rest).take 64) :: chunks64 ((b :: rest).drop 64)
termination_by l => l.length
decreasing_by simp [List.length_drop]; omega

/-- The four big-endian bytes of a 32-bit word. -/
def wordBytes (w : Nat) : List Nat :=
  [w / 16777216 % 256, w / 65536 % 256, w / 256 % 256, w % 256]

/-- The 32 digest bytes of a chaining state. -/
def stateBytes (st : Sha256State) : List Nat :=
  wordBytes st.h0 ++ wordBytes st.h1 ++ wordBytes st.h2 ++ wordBytes st.h3 ++
  wordBytes st.h4 ++ wordBytes st.h5 ++ wordBytes st.h6 ++ wordBytes st.h7

/-- hashlib.sha256(msg).digest() as a byte list. -/
def sha256 (msg : List Nat) : List Nat :=
  stateBytes ((chunks64 (sha256Pad msg)).foldl sha256Compress sha256Init)

/-- hmac.new(key, msg, hashlib.sha256).digest(): RFC 2104 with a 64-byte
block, the key hashed first when longer than a block. -/
def hmacSha256 (key msg : List Nat) : List Nat :=
  let k0 := if 64 < key.length then sha256 key else key
  let kp := k0 ++ List.replicate (64 - k0.length) 0
  let ipadded := kp.map (fun b => b ^^^ 0x36)
  let opadded := kp.map (fun b => b ^^^ 0x5c)
  sha256 (opadded ++ sha256 (ipadded ++ msg))

/-- hexdigest: two lowercase hex digits per byte. -/
def hexOfBytes (bs : List Nat) : List Char :=
  bs.flatMap (fun b => [hexDigitChar (b / 16), hexDigitChar b])

/-- utils.generate_signature: the hexdigest of the HMAC-SHA256 of
timestamp followed by content, keyed by the UTF-8 bytes of the secret. -/
def generate_signature (api_secret timestamp content : String) : String :=
  ⟨hexOfBytes (hmacSha256 (strBytes api_secret)
    (strBytes (timestamp ++ content)))⟩

/-- hmac.compare_digest on two hexdigest strings: a timing-independent
comparison returning whether they are equal. -/
def compare_digest (a b : String) : Bool := a == b

/-- utils.verify_signature: recompute the expected signature and compare. -/
def verify_signature (signature api_secret timestamp content : String) : Bool :=
  compare_digest signature (generate_signature api_secret timestamp content)

/-- A completed HTTP exchange as the requests session reports it: the final
status, the JSON parse of the body (None when the body is not parseable
JSON), and the raw body text. -/
structure CompletedExchange where
  status : Nat
  jsonBody : Option Json
  text : String

/-- The outcome of the underlying requests post call: a transport-level
failure (connection refused, timeout, TLS), or a completed exchange. -/
inductive HttpOutcome where
  | transportFailure (msg : String)
  | exchange (r : CompletedExchange)

/-- The message of the requests HTTPError that raise_for_status raises for
an error status. -/
def httpErrorMessage (status : Nat) : String :=
  natStr status ++ " Error for url"

/-- HTTPClient.post from http.py, as a function of the exchange outcome.
raise_for_status raises HTTPError, a RequestException subclass, for statuses
400-599; the enclosing handler catches every RequestException and re-raises
it as the SDK ConnectionError, so an HTTP error status takes the same path
as a transport failure.  On other statuses the body is parsed; a body that
is not JSON raises APIError carrying the raw body text, and APIError is not
a RequestException, so it escapes the enclosing handler. -/
def HTTPClient.post : HttpOutcome → Except CzError Json
  | .transportFailure m =>
      .error (.connectionError ("Failed to connect to Corezoid API: " ++ m))
  | .exchange r =>
      if 400 ≤ r.status ∧ r.status < 600 then
        .error (.connectionError
          ("Failed to connect to Corezoid API: " ++ httpErrorMessage r.status))
      else
        match r.jsonBody with
        | some j => .ok j
        | none =>
            .error (.apiError "Invalid JSON response from Corezoid API"
              (some r.text))

/-- CorezoidClient._prepare_content: the envelope dict with the single key
ops holding the operations list, serialized with to_json. -/
def prepare_content (operations : List JDict) : String :=
  to_json (Json.obj [("ops", Json.arr (operations.map Json.obj))])

/-- CorezoidClient.send, with the HTTP exchange modelled as an explicit
transport function from the serialized content and headers to the parsed
response dict or an error.  The empty-operations check precedes the
timestamp, the signing and the transport call. -/
def CorezoidClient.send (api_secret api_login : String) (now : Nat)
    (transport : String → List (String × String) → Except CzError JDict)
    (operations : List JDict) : Except CzError CorezoidResponse :=
  if operations.isEmpty then
    Except.error (CzError.validationError "No operations provided")
  else
    let timestamp := natStr now
    let content := prepare_content operations
    let signature := generate_signature api_secret timestamp content
    let headers := [("Content-Type", "application/json"),
                    ("X-API-Login", api_login),
                    ("X-API-Signature", signature),
                    ("X-API-Timestamp", timestamp)]
    (transport content headers).map CorezoidResponse.ofData

/-- CorezoidClient.send_batch: rejects an empty batch, otherwise delegates
to send with the batch's operations. -/
def CorezoidClient.send_batch (api_secret api_login : String) (now : Nat)
    (transport : String → List (String × String) → Except CzError JDict)
    (batch : OperationBatch) : Except CzError CorezoidResponse :=
  if batch.is_empty then
    Except.error (CzError.validationError "Batch is empty")
  else
    CorezoidClient.send api_secret api_login now transport batch.operations

/-! ## Helper lemmas -/

theorem isStrEq_eq_true_iff (o : Option Json) (t : String) :
    isStrEq o t = true ↔ o = some (Json.str t) := by
  cases o with
  | none => simp [isStrEq]
  | some v =>
    cases v <;> simp [isStrEq]

theorem CorezoidResponse.ofData_data (d : JDict) :
    (CorezoidResponse.ofData d).data = d := rfl

theorem CorezoidResponse.ofData_request_proc (d : JDict) :
    (CorezoidResponse.ofData d).request_proc = dictGet d "request_proc" := rfl

/-! ## Claims -/

/-- C7: for every conv_id, ref and data, RequestOperation.create returns a
dict with type create, obj task, conv_id the string form of the input
conv_id, ref and data echoed unchanged, and exactly the five required keys,
so no optional field is ever present with a placeholder value. -/
theorem request_create_fields (conv_id : ConvId) (ref : String) (data : Json) :
    dictGet (RequestOperation.create conv_id ref data) "type"
      = some (Json.str "create")
  ∧ dictGet (RequestOperation.create conv_id ref data) "obj"
      = some (Json.str "task")
  ∧ dictGet (RequestOperation.create conv_id ref data) "conv_id"
      = some (Json.str conv_id.toStr)
  ∧ dictGet (RequestOperation.create conv_id ref data) "ref"
      = some (Json.str ref)
  ∧ dictGet (RequestOperation.create conv_id ref data) "data" = some data
  ∧ dictKeys (RequestOperation.create conv_id ref data)
      = ["type", "conv_id", "obj", "ref", "data"] :=
  ⟨rfl, rfl, rfl, rfl, rfl, rfl⟩

/-- C10: ResponseOperation.ok carries a data key exactly when the data
argument is truthy, so both None and the empty dict are omitted; likewise
ResponseOperation.error carries error_code exactly when the code is truthy,
so the empty-string code is omitted exactly like an absent one. -/
theorem response_operation_optional_fields (conv_id : ConvId) (ref msg : String)
    (data : Option JDict) (code : Option String) :
    ((dictKeys (ResponseOperation.ok conv_id ref data)).contains "data"
      = pyTruthyDict data)
  ∧ dictKeys (ResponseOperation.ok conv_id ref none)
      = ["obj", "proc", "conv_id", "ref"]
  ∧ dictKeys (ResponseOperation.ok conv_id ref (some []))
      = ["obj", "proc", "conv_id", "ref"]
  ∧ ((dictKeys (ResponseOperation.error conv_id ref msg code)).contains
      "error_code" = pyTruthyStr code)
  ∧ dictKeys (ResponseOperation.error conv_id ref msg none)
      = ["obj", "proc", "conv_id", "ref", "error_message"]
  ∧ dictKeys (ResponseOperation.error conv_id ref msg (some ""))
      = ["obj", "proc", "conv_id", "ref", "error_message"] := by
  refine ⟨?_, rfl, rfl, ?_, rfl, rfl⟩
  · match data with
    | none => rfl
    | some [] => rfl
    | some (kv :: rest) => rfl
  · match code with
    | none => rfl
    | some s =>
      cases h : s.isEmpty <;>
        simp [ResponseOperation.error, pyTruthyStr, dictKeys, h]

/-- C8 amended: is_success is true exactly when the raw dict's request_proc
field is the string ok; get_error is None on success, and on failure returns
the raw dict's error_message field, which is itself None when that field is
absent (so a failed response without the field yields None). -/
theorem response_success_and_error (d : JDict) :
    ((CorezoidResponse.ofData d).is_success = true
      ↔ dictGet d "request_proc" = some (Json.str "ok"))
  ∧ ((CorezoidResponse.ofData d).is_success = true
      → (CorezoidResponse.ofData d).get_error = none)
  ∧ ((CorezoidResponse.ofData d).is_success = false
      → (CorezoidResponse.ofData d).get_error = dictGet d "error_message") := by
  refine ⟨?_, ?_, ?_⟩
  · simpa [CorezoidResponse.is_success, CorezoidResponse.ofData] using
      isStrEq_eq_true_iff (dictGet d "request_proc") "ok"
  · intro h
    simp [CorezoidResponse.get_error, h]
  · intro h
    unfold CorezoidResponse.get_error
    rw [h]
    simp [CorezoidResponse.ofData]

theorem response_success_and_error_witness :
    (CorezoidResponse.ofData [("request_proc", Json.str "ok")]).get_error = none
  ∧ (CorezoidResponse.ofData
      [("request_proc", Json.str "error"),
       ("error_message", Json.str "boom")]).get_error
      = dictGet [("request_proc", Json.str "error"),
                 ("error_message", Json.str "boom")] "error_message" :=
  ⟨(response_success_and_error _).2.1 rfl, (response_success_and_error _).2.2 rfl⟩

/-- C8 counterexample: a response dict whose request_proc is error but which
has no error_message field is not successful, yet get_error returns None —
so get_error does not return a message exactly when the request failed. -/
theorem response_get_error_counterexample :
    (CorezoidResponse.ofData [("request_proc", Json.str "error")]).is_success
      = false
  ∧ (CorezoidResponse.ofData [("request_proc", Json.str "error")]).get_error
      = none :=
  ⟨rfl, rfl⟩

/-- C6: get_operation_result returns the first element of the ops list whose
ref field equals the requested ref and None when no element matches; on the
two-element ops list with refs a and b it returns the a record for a and
None for z. -/
theorem get_operation_result_first_match (r : CorezoidResponse) (ref : String)
    (l1 l2 : List JDict) (rec : JDict) :
    (r.ops = l1 ++ rec :: l2 →
      (∀ x ∈ l1, dictGet x "ref" ≠ some (Json.str ref)) →
      dictGet rec "ref" = some (Json.str ref) →
      r.get_operation_result ref = some rec)
  ∧ ((∀ x ∈ r.ops, dictGet x "ref" ≠ some (Json.str ref)) →
      r.get_operation_result ref = none)
  ∧ (CorezoidResponse.ofData
      [("request_proc", Json.str "ok"),
       ("ops", Json.arr [Json.obj [("ref", Json.str "a")],
                         Json.obj [("ref", Json.str "b")]])]).get_operation_result
      "a" = some [("ref", Json.str "a")]
  ∧ (CorezoidResponse.ofData
      [("request_proc", Json.str "ok"),
       ("ops", Json.arr [Json.obj [("ref", Json.str "a")],
                         Json.obj [("ref", Json.str "b")]])]).get_operation_result
      "z" = none := by
  refine ⟨?_, ?_, rfl, rfl⟩
  · intro hops h1 hrec
    unfold CorezoidResponse.get_operation_result
    rw [hops, List.find?_append]
    have hnone : l1.find? (fun op => isStrEq (dictGet op "ref") ref) = none := by
      rw [List.find?_eq_none]
      intro x hx
      simp only [Bool.not_eq_true]
      rcases h : isStrEq (dictGet x "ref") ref with _ | _
      · rfl
      · exact absurd ((isStrEq_eq_true_iff _ _).mp h) (h1 x hx)
    rw [hnone]
    simp [List.find?_cons, (isStrEq_eq_true_iff _ _).mpr hrec]
  · intro h
    unfold CorezoidResponse.get_operation_result
    rw [List.find?_eq_none]
    intro x hx
    simp only [Bool.not_eq_true]
    rcases hb : isStrEq (dictGet x "ref") ref with _ | _
    · rfl
    · exact absurd ((isStrEq_eq_true_iff _ _).mp hb) (h x hx)

theorem get_operation_result_first_match_witness :
    (CorezoidResponse.ofData
      [("ops", Json.arr [Json.obj [("ref", Json.str "a")],
                         Json.obj [("ref", Json.str "b")]])]).get_operation_result
      "b" = some [("ref", Json.str "b")]
  ∧ (CorezoidResponse.ofData
      [("ops", Json.arr [Json.obj [("ref", Json.str "a")]])]).get_operation_result
      "z" = none := by
  constructor
  · exact (get_operation_result_first_match _ "b" [[("ref", Json.str "a")]] []
      [("ref", Json.str "b")]).1 rfl
      (by intro x hx; simp at hx; subst hx; simp [dictGet]) rfl
  · exact (get_operation_result_first_match _ "z" [] []
      [("ref", Json.str "z")]).2.1
      (by intro x hx; simp [CorezoidResponse.ofData, Json.asDict, dictGet] at hx; subst hx; simp [dictGet])

/-- C5: send with an empty operations list fails with the ValidationError
for missing operations for every transport, secret, login and clock — so
before any signing or network interaction — and send_batch with an empty
batch fails with its ValidationError the same way, for every transport. -/
theorem send_empty_validation (api_secret api_login : String) (now : Nat)
    (transport : String → List (String × String) → Except CzError JDict)
    (batch : OperationBatch) :
    CorezoidClient.send api_secret api_login now transport []
      = Except.error (CzError.validationError "No operations provided")
  ∧ (batch.operations = [] →
      CorezoidClient.send_batch api_secret api_login now transport batch
        = Except.error (CzError.validationError "Batch is empty")) := by
  constructor
  · rfl
  · intro h
    simp [CorezoidClient.send_batch, OperationBatch.is_empty, h]

theorem send_empty_validation_witness :
    CorezoidClient.send_batch "secret" "login" 0
      (fun _ _ => Except.error (CzError.connectionError "unreachable"))
      (OperationBatch.mk0 5)
      = Except.error (CzError.validationError "Batch is empty") :=
  (send_empty_validation "secret" "login" 0 _ _).2 rfl

theorem hexDigitChar_mem (n : Nat) : hexDigitChar n ∈ hexLowerChars := by
  unfold hexDigitChar hexLowerChars
  have h : n % 16 < 16 := Nat.mod_lt _ (by norm_num)
  set m := n % 16 with hm
  interval_cases m <;> decide

theorem mem_hexOfBytes (bs : List Nat) (c : Char) (h : c ∈ hexOfBytes bs) :
    c ∈ hexLowerChars := by
  induction bs with
  | nil => simp [hexOfBytes] at h
  | cons b rest ih =>
    simp only [hexOfBytes, List.flatMap_cons, List.mem_append] at h
    rcases h with h | h
    · simp at h
      rcases h with h | h <;> exact h ▸ hexDigitChar_mem _
    · exact ih (by simpa [hexOfBytes] using h)

theorem hexOfBytes_length (bs : List Nat) :
    (hexOfBytes bs).length = 2 * bs.length := by
  induction bs with
  | nil => rfl
  | cons b rest ih =>
    simp only [hexOfBytes, List.flatMap_cons, List.length_append,
      List.length_cons, List.length_nil] at ih ⊢
    omega

theorem sha256_length (m : List Nat) : (sha256 m).length = 32 := by
  simp [sha256, stateBytes, wordBytes]

/-- C1: generate_signature is a pure function, hence deterministic; its
output is a 64-character string of lowercase hex digits for every secret,
timestamp and content; and verify_signature returns true exactly when the
candidate string equals the signature generate_signature produces for the
same inputs, false for every other string. -/
theorem signature_spec (api_secret timestamp content s : String) :
    generate_signature api_secret timestamp content
      = generate_signature api_secret timestamp content
  ∧ (generate_signature api_secret timestamp content).length = 64
  ∧ ((generate_signature api_secret timestamp content).data.all
      (fun c => decide (c ∈ hexLowerChars)) = true)
  ∧ (verify_signature s api_secret timestamp content = true
      ↔ s = generate_signature api_secret timestamp content) := by
  refine ⟨rfl, ?_, ?_, ?_⟩
  · show (hexOfBytes (hmacSha256 (strBytes api_secret)
      (strBytes (timestamp ++ content)))).length = 64
    rw [hexOfBytes_length]
    rw [show hmacSha256 (strBytes api_secret) (strBytes (timestamp ++ content))
      = sha256 _ from rfl]
    rw [sha256_length]
  · rw [List.all_eq_true]
    intro c hc
    rw [decide_eq_true_iff]
    exact mem_hexOfBytes _ c hc
  · simp [verify_signature, compare_digest, beq_iff_eq]

theorem OperationBatch.add_of_room (b : OperationBatch) (op : JDict)
    (h : b.operations.length < b.max_batch_size) :
    b.add op = (none, { b with operations := b.operations ++ [op] }) := by
  have hn : ¬ b.max_batch_size ≤ b.operations.length := by omega
  simp [OperationBatch.add, hn]

theorem OperationBatch.add_of_full (b : OperationBatch) (op : JDict)
    (h : b.max_batch_size ≤ b.operations.length) :
    b.add op = (some ("Batch is full (max size: "
      ++ natStr b.max_batch_size ++ ")"), b) := by
  simp [OperationBatch.add, h]

theorem BatchCmd.apply_bounded (b : OperationBatch) (c : BatchCmd)
    (h : b.operations.length ≤ b.max_batch_size) :
    (BatchCmd.apply b c).operations.length ≤ b.max_batch_size
    ∧ (BatchCmd.apply b c).max_batch_size = b.max_batch_size := by
  have key : ∀ op : JDict,
      (b.add op).2.operations.length ≤ b.max_batch_size
      ∧ (b.add op).2.max_batch_size = b.max_batch_size := by
    intro op
    by_cases hfull : b.max_batch_size ≤ b.operations.length
    · rw [OperationBatch.add_of_full b op hfull]
      exact ⟨h, rfl⟩
    · rw [OperationBatch.add_of_room b op (by omega)]
      simp
      omega
  cases c with
  | add op => exact key op
  | add_create cid d r? n u =>
    simpa [BatchCmd.apply, OperationBatch.add_create] using key _
  | add_modify_ref cid r d =>
    simpa [BatchCmd.apply, OperationBatch.add_modify_ref] using key _
  | add_modify_id cid o d =>
    simpa [BatchCmd.apply, OperationBatch.add_modify_id] using key _
  | add_get cid r =>
    simpa [BatchCmd.apply, OperationBatch.add_get] using key _
  | add_get_by_id cid o =>
    simpa [BatchCmd.apply, OperationBatch.add_get_by_id] using key _
  | clear => exact ⟨by simp [BatchCmd.apply, OperationBatch.clear], rfl⟩

theorem runBatch_bounded (cs : List BatchCmd) (b : OperationBatch)
    (h : b.operations.length ≤ b.max_batch_size) :
    (runBatch b cs).operations.length ≤ b.max_batch_size
    ∧ (runBatch b cs).max_batch_size = b.max_batch_size := by
  induction cs generalizing b with
  | nil => exact ⟨h, rfl⟩
  | cons c rest ih =>
    have step := BatchCmd.apply_bounded b c h
    have := ih (BatchCmd.apply b c) (step.2 ▸ step.1)
    simp only [runBatch, List.foldl_cons]
    exact ⟨step.2 ▸ this.1, step.2 ▸ this.2⟩

theorem addAll_ok (ops : List JDict) (b : OperationBatch)
    (h : b.operations.length + ops.length ≤ b.max_batch_size) :
    addAll b ops = (ops.map (fun _ => none),
      { b with operations := b.operations ++ ops }) := by
  induction ops generalizing b with
  | nil => simp [addAll]
  | cons op rest ih =>
    simp only [addAll]
    rw [OperationBatch.add_of_room b op (by simp at h; omega)]
    rw [ih { b with operations := b.operations ++ [op] } (by simp at h ⊢; omega)]
    simp

/-- C2 amended: for every capacity N, after every sequence of
add/add_create/add_modify_ref/add_modify_id/add_get/add_get_by_id/clear
calls starting from a fresh batch, len(operations) is at most N and the
capacity is unchanged; starting from empty, N add calls all succeed,
appending in insertion order, and an add on the then-full batch fails with
the capacity ValueError leaving the batch unmodified; clear on a full batch
empties it leaving max_batch_size unchanged, and — provided N is positive —
an add is accepted again after the clear (a batch constructed with capacity
0 never accepts an add, before or after clear). -/
theorem batch_capacity_invariant (N : Nat) (cs : List BatchCmd)
    (ops : List JDict) (op : JDict) (b : OperationBatch) :
    ((runBatch (OperationBatch.mk0 N) cs).operations.length ≤ N
      ∧ (runBatch (OperationBatch.mk0 N) cs).max_batch_size = N)
  ∧ (ops.length = N →
      addAll (OperationBatch.mk0 N) ops
        = (ops.map (fun _ => none),
           { operations := ops, max_batch_size := N }))
  ∧ (ops.length = N →
      ({ operations := ops, max_batch_size := N } : OperationBatch).add op
        = (some ("Batch is full (max size: " ++ natStr N ++ ")"),
           { operations := ops, max_batch_size := N }))
  ∧ (b.is_full = true →
      b.clear = { operations := [], max_batch_size := b.max_batch_size })
  ∧ (b.is_full = true → 0 < b.max_batch_size →
      b.clear.add op
        = (none, { operations := [op], max_batch_size := b.max_batch_size })) := by
  refine ⟨runBatch_bounded cs _ (by simp [OperationBatch.mk0]), ?_, ?_, ?_, ?_⟩
  · intro h
    have := addAll_ok ops (OperationBatch.mk0 N)
      (by simp [OperationBatch.mk0, h])
    simpa [OperationBatch.mk0] using this
  · intro h
    exact OperationBatch.add_of_full _ op (by simp [h])
  · intro _
    rfl
  · intro _ hpos
    have := OperationBatch.add_of_room
      { operations := ([] : List JDict), max_batch_size := b.max_batch_size }
      op (by simpa using hpos)
    simpa [OperationBatch.clear] using this

/-- C2 counterexample: a batch constructed with capacity 0 is full, and after
clear() an add still fails with the capacity error — so clear() on a full
batch does not restore acceptance of add for every capacity N. -/
theorem batch_clear_zero_counterexample :
    (OperationBatch.mk0 0).is_full = true
  ∧ ((OperationBatch.mk0 0).clear.add []).1
      = some ("Batch is full (max size: " ++ natStr 0 ++ ")")
  ∧ ((OperationBatch.mk0 0).clear.add []).2 = (OperationBatch.mk0 0).clear :=
  ⟨rfl, rfl, rfl⟩

theorem batch_capacity_invariant_witness :
    (addAll (OperationBatch.mk0 2) ([[], []] : List JDict)
      = (([[], []] : List JDict).map (fun _ => (none : Option String)),
         { operations := ([[], []] : List JDict), max_batch_size := 2 }))
  ∧ (({ operations := ([[], []] : List JDict), max_batch_size := 2 } : OperationBatch).add []
      = (some ("Batch is full (max size: " ++ natStr 2 ++ ")"),
         { operations := ([[], []] : List JDict), max_batch_size := 2 }))
  ∧ (({ operations := ([[]] : List JDict), max_batch_size := 1 } : OperationBatch).clear
      = { operations := [], max_batch_size := 1 })
  ∧ (({ operations := ([[]] : List JDict), max_batch_size := 1 } : OperationBatch).clear.add []
      = (none, { operations := ([[]] : List JDict), max_batch_size := 1 })) :=
  ⟨(batch_capacity_invariant 2 [] ([[], []] : List JDict) []
      (OperationBatch.mk0 0)).2.1 rfl,
   (batch_capacity_invariant 2 [] ([[], []] : List JDict) []
      (OperationBatch.mk0 0)).2.2.1 rfl,
   (batch_capacity_invariant 1 [] [] []
     { operations := ([[]] : List JDict), max_batch_size := 1 }).2.2.2.1 rfl,
   (batch_capacity_invariant 1 [] [] []
     { operations := ([[]] : List JDict), max_batch_size := 1 }).2.2.2.2 rfl
     (by norm_num)⟩

theorem digitChar_mem_decimal (m : Nat) (h : m < 10) :
    Nat.digitChar m ∈ decimalChars := by
  interval_cases m <;> decide

theorem natDigitsAux_mem (fuel : Nat) : ∀ (n : Nat), ∀ c ∈ natDigitsAux fuel n,
    c ∈ decimalChars := by
  induction fuel with
  | zero => intro n c hc; simp [natDigitsAux] at hc
  | succ fuel ih =>
    intro n c hc
    simp only [natDigitsAux] at hc
    split at hc
    · simp at hc
      exact hc ▸ digitChar_mem_decimal n (by omega)
    · rcases List.mem_append.mp hc with h | h
      · exact ih _ c h
      · simp at h
        exact h ▸ digitChar_mem_decimal _ (Nat.mod_lt _ (by norm_num))

theorem natDigits_mem (n : Nat) : ∀ c ∈ natDigits n, c ∈ decimalChars :=
  natDigitsAux_mem (n + 1) n

theorem natDigits_ne_nil (n : Nat) : natDigits n ≠ [] := by
  unfold natDigits natDigitsAux
  split <;> simp

/-- C9: add_create without an explicit ref (when the batch has room, so the
append happens) succeeds and returns a reference of the shape
task-<decimal digits>-<8 lowercase hex characters>, and the operation
appended to the batch carries exactly the returned reference; with an
explicit ref, that ref is returned and used unchanged.  That uuid4().hex is
32 lowercase hex characters is a hypothesis standing for the uuid library's
contract. -/
theorem add_create_reference (b : OperationBatch) (conv_id : ConvId)
    (data : Json) (now : Nat) (uuidHex : String) (r : String)
    (hu : uuidHex.length = 32)
    (huhex : ∀ c ∈ uuidHex.data, c ∈ hexLowerChars)
    (hroom : b.operations.length < b.max_batch_size) :
    (∃ ds hx : String,
      (b.add_create conv_id data none now uuidHex).2.2
        = "task-" ++ ds ++ "-" ++ hx
      ∧ ds ≠ "" ∧ (∀ c ∈ ds.data, c ∈ decimalChars)
      ∧ hx.length = 8 ∧ (∀ c ∈ hx.data, c ∈ hexLowerChars))
  ∧ (b.add_create conv_id data none now uuidHex).1 = none
  ∧ (b.add_create conv_id data none now uuidHex).2.1.operations
      = b.operations ++ [RequestOperation.create conv_id
          ((b.add_create conv_id data none now uuidHex).2.2) data]
  ∧ (b.add_create conv_id data (some r) now uuidHex).2.2 = r
  ∧ (b.add_create conv_id data (some r) now uuidHex).1 = none
  ∧ (b.add_create conv_id data (some r) now uuidHex).2.1.operations
      = b.operations ++ [RequestOperation.create conv_id r data] := by
  have hadd := fun (op : JDict) => OperationBatch.add_of_room b op hroom
  refine ⟨⟨natStr now, strTake uuidHex 8, ?_, ?_, ?_, ?_, ?_⟩, ?_, ?_, rfl, ?_, ?_⟩
  · simp [OperationBatch.add_create]
  · simp [natStr, String.ext_iff]
    exact natDigits_ne_nil now
  · exact natDigits_mem now
  · show (uuidHex.data.take 8).length = 8
    rw [List.length_take]
    have : uuidHex.data.length = 32 := hu
    omega
  · intro c hc
    exact huhex c (List.mem_of_mem_take hc)
  · simp [OperationBatch.add_create, hadd]
  · simp [OperationBatch.add_create, hadd]
  · simp [OperationBatch.add_create, hadd]
  · simp [OperationBatch.add_create, hadd]

theorem add_create_reference_witness :
    ((OperationBatch.mk0 1).add_create (ConvId.str "1") Json.null
        (some "myref") 1234 "0123456789abcdef0123456789abcdef").2.2 = "myref"
  ∧ ((OperationBatch.mk0 1).add_create (ConvId.str "1") Json.null
        none 1234 "0123456789abcdef0123456789abcdef").1 = none :=
  ⟨(add_create_reference (OperationBatch.mk0 1) (ConvId.str "1") Json.null
      1234 "0123456789abcdef0123456789abcdef" "myref" rfl
      (by decide) (by simp [OperationBatch.mk0])).2.2.2.1,
   (add_create_reference (OperationBatch.mk0 1) (ConvId.str "1") Json.null
      1234 "0123456789abcdef0123456789abcdef" "myref" rfl
      (by decide) (by simp [OperationBatch.mk0])).2.1⟩

/-- C3 as stated: every completed non-2xx exchange surfaces an API-level
error distinct from connection failure.  Stated over the embedding to be
refuted. -/
def nonTwoxxYieldsApiError : Prop :=
  ∀ r : CompletedExchange, ¬ (200 ≤ r.status ∧ r.status < 300) →
    ∃ msg raw, HTTPClient.post (HttpOutcome.exchange r)
      = Except.error (CzError.apiError msg raw)

/-- C3 counterexample: a completed exchange with status 500 and a valid JSON
body is surfaced as ConnectionError — the same error as a transport failure,
not a distinct API-level error — because raise_for_status raises a
RequestException that the enclosing handler converts to ConnectionError. -/
theorem http_post_non2xx_counterexample :
    HTTPClient.post (HttpOutcome.exchange
        { status := 500, jsonBody := some Json.null, text := "null" })
      = Except.error (CzError.connectionError
          ("Failed to connect to Corezoid API: " ++ httpErrorMessage 500))
  ∧ ¬ nonTwoxxYieldsApiError := by
  constructor
  · rfl
  · intro h
    rcases h { status := 500, jsonBody := some Json.null, text := "null" }
        (by decide) with ⟨msg, raw, heq⟩
    rw [show HTTPClient.post (HttpOutcome.exchange
        { status := 500, jsonBody := some Json.null, text := "null" })
      = Except.error (CzError.connectionError
          ("Failed to connect to Corezoid API: " ++ httpErrorMessage 500))
      from rfl] at heq
    exact CzError.noConfusion (Except.error.inj heq)

/-- C3 amended: a completed exchange with an error status (400-599) is
surfaced as ConnectionError, merged with transport failure rather than
distinct from it; a completed exchange outside that range whose body is not
parseable JSON is surfaced as the distinct APIError carrying the raw body,
never as ConnectionError; a completed exchange outside that range with a
JSON body is returned normally; and a transport failure is surfaced as
ConnectionError. -/
theorem http_post_error_taxonomy (r : CompletedExchange) (m : String) :
    (400 ≤ r.status → r.status < 600 →
      HTTPClient.post (HttpOutcome.exchange r)
        = Except.error (CzError.connectionError
            ("Failed to connect to Corezoid API: " ++ httpErrorMessage r.status)))
  ∧ (¬ (400 ≤ r.status ∧ r.status < 600) → r.jsonBody = none →
      HTTPClient.post (HttpOutcome.exchange r)
        = Except.error (CzError.apiError
            "Invalid JSON response from Corezoid API" (some r.text)))
  ∧ (∀ j, ¬ (400 ≤ r.status ∧ r.status < 600) → r.jsonBody = some j →
      HTTPClient.post (HttpOutcome.exchange r) = Except.ok j)
  ∧ HTTPClient.post (HttpOutcome.transportFailure m)
      = Except.error (CzError.connectionError
          ("Failed to connect to Corezoid API: " ++ m)) := by
  refine ⟨?_, ?_, ?_, rfl⟩
  · intro h1 h2
    simp [HTTPClient.post, h1, h2]
  · intro h hb
    simp [HTTPClient.post, h, hb]
  · intro j h hb
    simp [HTTPClient.post, h, hb]

theorem http_post_error_taxonomy_witness :
    (HTTPClient.post (HttpOutcome.exchange
        { status := 404, jsonBody := some Json.null, text := "null" })
      = Except.error (CzError.connectionError
          ("Failed to connect to Corezoid API: " ++ httpErrorMessage 404)))
  ∧ (HTTPClient.post (HttpOutcome.exchange
        { status := 200, jsonBody := none, text := "<html>" })
      = Except.error (CzError.apiError
          "Invalid JSON response from Corezoid API" (some "<html>")))
  ∧ (HTTPClient.post (HttpOutcome.exchange
        { status := 200, jsonBody := some (Json.obj []), text := "" })
      = Except.ok (Json.obj [])) :=
  ⟨(http_post_error_taxonomy
      { status := 404, jsonBody := some Json.null, text := "null" } "").1
      (by norm_num) (by norm_num),
   (http_post_error_taxonomy
      { status := 200, jsonBody := none, text := "<html>" } "").2.1
      (by decide) rfl,
   (http_post_error_taxonomy
      { status := 200, jsonBody := some (Json.obj []), text := "" } "").2.2.1
      (Json.obj []) (by decide) rfl⟩

/-- JSON whitespace characters. -/
def isJsonWs (c : Char) : Bool :=
  decide (c = ' ' ∨ c = '\t' ∨ c = '\n' ∨ c = '\r')

/-- No space character inside the string (tab, newline and return are always
escaped by the serializer, a literal space is emitted as-is). -/
def strNoSpace (s : String) : Bool := s.data.all (fun c => decide (c ≠ ' '))

mutual

/-- Every string (key or value) in the JSON tree is free of the space
character. -/
def jsonClean : Json → Bool
  | .null => true
  | .bool _ => true
  | .num _ => true
  | .str s => strNoSpace s
  | .arr xs => jsonCleanArr xs
  | .obj kvs => jsonCleanObj kvs

/-- jsonClean over an object's entries. -/
def jsonCleanObj : JDict → Bool
  | [] => true
  | (k, v) :: rest => strNoSpace k && jsonClean v && jsonCleanObj rest

/-- jsonClean over an array's elements. -/
def jsonCleanArr : List Json → Bool
  | [] => true
  | x :: xs => jsonClean x && jsonCleanArr xs

end

theorem mem_hexLower_not_ws (c : Char) (h : c ∈ hexLowerChars) :
    isJsonWs c = false := by
  fin_cases h <;> rfl

theorem mem_decimal_not_ws (c : Char) (h : c ∈ decimalChars) :
    isJsonWs c = false := by
  fin_cases h <;> rfl

theorem natStr_no_ws (n : Nat) : ∀ c ∈ (natStr n).data, isJsonWs c = false := by
  intro c hc
  replace hc : c ∈ natDigits n := hc
  exact mem_decimal_not_ws c (natDigits_mem n c hc)

theorem intStr_no_ws (n : Int) : ∀ c ∈ (intStr n).data, isJsonWs c = false := by
  intro c hc
  unfold intStr at hc
  split at hc
  · replace hc : c ∈ '-' :: natDigits n.natAbs := hc
    rcases List.mem_cons.mp hc with rfl | hc
    · rfl
    · exact mem_decimal_not_ws c (natDigits_mem _ c hc)
  · replace hc : c ∈ natDigits n.natAbs := hc
    exact mem_decimal_not_ws c (natDigits_mem _ c hc)

theorem uEscape_no_ws (n : Nat) : ∀ x ∈ uEscape n, isJsonWs x = false := by
  intro x hx
  unfold uEscape hex4Chars at hx
  rcases List.mem_cons.mp hx with rfl | hx
  · rfl
  rcases List.mem_cons.mp hx with rfl | hx
  · rfl
  rcases List.mem_cons.mp hx with rfl | hx
  · exact mem_hexLower_not_ws _ (hexDigitChar_mem _)
  rcases List.mem_cons.mp hx with rfl | hx
  · exact mem_hexLower_not_ws _ (hexDigitChar_mem _)
  rcases List.mem_cons.mp hx with rfl | hx
  · exact mem_hexLower_not_ws _ (hexDigitChar_mem _)
  rcases List.mem_cons.mp hx with rfl | hx
  · exact mem_hexLower_not_ws _ (hexDigitChar_mem _)
  exact absurd hx (List.not_mem_nil x)

theorem escChars_no_ws (c : Char) (h : c ≠ ' ') :
    ∀ x ∈ escChars c, isJsonWs x = false := by
  intro x hx
  unfold escChars at hx
  split_ifs at hx with h1 h2 h3 h4 h5 h6 h7 h8 h9
  · rcases List.mem_pair.mp hx with rfl | rfl <;> rfl
  · rcases List.mem_pair.mp hx with rfl | rfl <;> rfl
  · rcases List.mem_pair.mp hx with rfl | rfl <;> rfl
  · rcases List.mem_pair.mp hx with rfl | rfl <;> rfl
  · rcases List.mem_pair.mp hx with rfl | rfl <;> rfl
  · rcases List.mem_pair.mp hx with rfl | rfl <;> rfl
  · rcases List.mem_pair.mp hx with rfl | rfl <;> rfl
  · exact uEscape_no_ws _ x hx
  · rcases List.mem_append.mp hx with hx | hx
    · exact uEscape_no_ws _ x hx
    · exact uEscape_no_ws _ x hx
  · rcases List.mem_singleton.mp hx with rfl
    have h2' : x ≠ '\t' := fun hh => h7 hh
    have h3' : x ≠ '\n' := fun hh => h5 hh
    have h4' : x ≠ '\r' := fun hh => h6 hh
    unfold isJsonWs
    simp [h, h2', h3', h4']

theorem encodeStrChars_no_ws (s : String) (h : strNoSpace s = true) :
    ∀ x ∈ encodeStrChars s, isJsonWs x = false := by
  intro x hx
  unfold encodeStrChars at hx
  rcases List.mem_cons.mp hx with rfl | hx
  · rfl
  rcases List.mem_append.mp hx with hx | hx
  · rcases List.mem_flatMap.mp hx with ⟨a, ha, hia⟩
    have hne : a ≠ ' ' := by
      have := (List.all_eq_true.mp h) a ha
      exact of_decide_eq_true this
    exact escChars_no_ws a hne x hia
  · rcases List.mem_singleton.mp hx with rfl
    rfl

theorem dump_no_ws :
    ∀ j : Json, jsonClean j = true → ∀ c ∈ dumpChars j, isJsonWs c = false := by
  have H := dumpChars.induct
    (fun j => jsonClean j = true → ∀ c ∈ dumpChars j, isJsonWs c = false)
    (fun kvs => jsonCleanObj kvs = true →
      ∀ c ∈ dumpObjChars kvs, isJsonWs c = false)
    (fun xs => jsonCleanArr xs = true →
      ∀ c ∈ dumpArrChars xs, isJsonWs c = false)
  apply H
  · intro _ c hc
    simp only [dumpChars, List.mem_cons, List.mem_nil_iff, or_false] at hc
    rcases hc with rfl | rfl | rfl | rfl <;> rfl
  · intro _ c hc
    simp only [dumpChars, List.mem_cons, List.mem_nil_iff, or_false] at hc
    rcases hc with rfl | rfl | rfl | rfl <;> rfl
  · intro _ c hc
    simp only [dumpChars, List.mem_cons, List.mem_nil_iff, or_false] at hc
    rcases hc with rfl | rfl | rfl | rfl | rfl <;> rfl
  · intro n _ c hc
    rw [dumpChars] at hc
    exact intStr_no_ws n c hc
  · intro s h c hc
    rw [dumpChars] at hc
    rw [jsonClean] at h
    exact encodeStrChars_no_ws s h c hc
  · intro xs ih h c hc
    rw [jsonClean] at h
    rw [dumpChars] at hc
    rcases List.mem_cons.mp hc with rfl | hc
    · rfl
    rcases List.mem_append.mp hc with hc | hc
    · exact ih h c hc
    · rcases List.mem_singleton.mp hc with rfl
      rfl
  · intro kvs ih h c hc
    rw [jsonClean] at h
    rw [dumpChars] at hc
    rcases List.mem_cons.mp hc with rfl | hc
    · rfl
    rcases List.mem_append.mp hc with hc | hc
    · exact ih h c hc
    · rcases List.mem_singleton.mp hc with rfl
      rfl
  · intro _ c hc
    rw [dumpArrChars] at hc
    exact absurd hc (List.not_mem_nil c)
  · intro x ih h c hc
    rw [jsonCleanArr] at h
    simp only [Bool.and_eq_true] at h
    rw [dumpArrChars] at hc
    exact ih h.1 c hc
  · intro x y rest ihx ihrest h c hc
    rw [jsonCleanArr] at h
    simp only [Bool.and_eq_true] at h
    rw [dumpArrChars] at hc
    rcases List.mem_append.mp hc with hc | hc
    · exact ihx h.1 c hc
    rcases List.mem_cons.mp hc with rfl | hc
    · rfl
    · exact ihrest h.2 c hc
  · intro _ c hc
    rw [dumpObjChars] at hc
    exact absurd hc (List.not_mem_nil c)
  · intro k v ihv h c hc
    rw [jsonCleanObj] at h
    simp only [Bool.and_eq_true] at h
    rw [dumpObjChars] at hc
    rcases List.mem_append.mp hc with hc | hc
    · exact encodeStrChars_no_ws k h.1.1 c hc
    rcases List.mem_cons.mp hc with rfl | hc
    · rfl
    · exact ihv h.1.2 c hc
  · intro k v e rest ihv ihrest h c hc
    rw [jsonCleanObj] at h
    simp only [Bool.and_eq_true] at h
    rw [dumpObjChars] at hc
    rcases List.mem_append.mp hc with hc | hc
    · rcases List.mem_append.mp hc with hc | hc
      · exact encodeStrChars_no_ws k h.1.1 c hc
      rcases List.mem_cons.mp hc with rfl | hc
      · rfl
      · exact ihv h.1.2 c hc
    · rcases List.mem_cons.mp hc with rfl | hc
      · rfl
      · exact ihrest h.2 c hc

/-- C4: _prepare_content is exactly the compact serialization of the
envelope dict with the single key ops holding the operations list; the
serialization inserts no whitespace (whenever the data's own strings are
free of spaces, the serialized envelope contains no whitespace character at
all); and the concrete create envelope of the claim serializes to exactly
the expected compact string. -/
theorem prepare_content_canonical (operations : List JDict) :
    (prepare_content operations
      = to_json (Json.obj [("ops", Json.arr (operations.map Json.obj))]))
  ∧ (jsonClean (Json.obj [("ops", Json.arr (operations.map Json.obj))]) = true →
      (prepare_content operations).data.all (fun c => !(isJsonWs c)) = true)
  ∧ prepare_content [RequestOperation.create (ConvId.str "1") "r1"
        (Json.obj [("k", Json.str "v")])]
      = "\x7b\"ops\":[\x7b\"type\":\"create\",\"conv_id\":\"1\",\"obj\":\"task\",\"ref\":\"r1\",\"data\":\x7b\"k\":\"v\"\x7d\x7d]\x7d" := by
  refine ⟨rfl, ?_, ?_⟩
  · intro h
    rw [List.all_eq_true]
    intro c hc
    replace hc : c ∈ dumpChars
        (Json.obj [("ops", Json.arr (operations.map Json.obj))]) := hc
    rw [dump_no_ws _ h c hc]
    rfl
  · simp only [prepare_content, to_json, RequestOperation.create, ConvId.toStr,
      dumpChars, dumpObjChars, dumpArrChars, encodeStrChars, escChars,
      List.map_cons, List.map_nil, List.flatMap_cons, List.flatMap_nil]
    rfl

theorem prepare_content_canonical_witness :
    (prepare_content []).data.all (fun c => !(isJsonWs c)) = true :=
  (prepare_content_canonical []).2.1
    (by simp [jsonClean, jsonCleanObj, jsonCleanArr, strNoSpace])
